import Mathlib

/-!
Verification of the storage layer and HTTP handlers of the go-student-api
service.  The students table of either SQL backend is modelled as an
explicit state (`Table`): the list of rows in physical insertion order plus
the auto-increment sequence value.  Each Go storage method becomes a pure
function from a table state to a result and a successor state; the SQL
engine behaviour the code relies on (SERIAL id assignment, the UNIQUE
constraint on the email column, ORDER BY id ASC) is part of the model.
-/

/-- Mirror of the Go struct types.Student: ID, Name, Email, Age.  The json
and validate struct tags are handled at their use sites. -/
structure Student where
  id : Int
  name : String
  email : String
  age : Int
deriving Repr, DecidableEq

/-- Zero value of types.Student, what a Go types.Student{} literal denotes. -/
def zeroStudent : Student := ⟨0, "", "", 0⟩

/-- Error kinds of the storage layer as named by the spec taxonomy; the Go
code carries them as wrapped error values. -/
inductive DbError where
  | constraintViolation
  | notFound (id : Int)
  | connectionError
deriving Repr, DecidableEq

/-- State of the students table: rows in insertion order plus the next
value of the auto-increment id sequence (SERIAL in postgres, AUTOINCREMENT
in sqlite). -/
structure Table where
  rows : List Student
  nextId : Int
deriving Repr, DecidableEq

/-- Freshly created students table: no rows, id sequence starting at 1. -/
def emptyTable : Table := ⟨[], 1⟩

/-- Row transformation of the UPDATE statement: the matched row takes the
new name, email and age while keeping its id; every other row is
unchanged. -/
def updateRow (id : Int) (name email : String) (age : Int) (s : Student) :
    Student :=
  if s.id == id then ⟨s.id, name, email, age⟩ else s

namespace Postgres

/-- Postgres.CreateStudent: INSERT INTO students (name, email, age) VALUES
($1,$2,$3) RETURNING id.  The UNIQUE constraint on email makes the engine
reject the insert when some row already holds the email (the Go code
returns the wrapped insert error); otherwise the SERIAL column assigns the
next sequence value, which RETURNING id hands back. -/
def CreateStudent (t : Table) (name email : String) (age : Int) :
    Except DbError Int × Table :=
  if t.rows.any (fun s => s.email == email) then
    (.error .constraintViolation, t)
  else
    (.ok t.nextId, ⟨t.rows ++ [⟨t.nextId, name, email, age⟩], t.nextId + 1⟩)

/-- Postgres.GetStudentById: SELECT id, name, email, age FROM students
WHERE id = $1 through QueryRow, i.e. the first matching row; sql.ErrNoRows
becomes the not-found error carrying the id. -/
def GetStudentById (t : Table) (id : Int) : Except DbError Student :=
  match t.rows.find? (fun s => s.id == id) with
  | some s => .ok s
  | none => .error (.notFound id)

/-- Postgres.GetStudents: SELECT id, name, email, age FROM students ORDER
BY id ASC; the ORDER BY clause is modelled by sorting the rows by id. -/
def GetStudents (t : Table) : Except DbError (List Student) :=
  .ok (List.insertionSort (fun a b => a.id ≤ b.id) t.rows)

/-- Tail of Postgres.UpdateStudentById once the UPDATE statement has run:
check RowsAffected against zero, then return the re-read record.  The Go
statement discarding the re-read error is modelled exactly: on a re-read
failure the method still answers with no error, holding the zero-valued
Student that GetStudentById returned alongside its error. -/
def updateReturn (id : Int) (rowsAffected : Nat)
    (reRead : Except DbError Student) : Except DbError Student :=
  if rowsAffected = 0 then .error (.notFound id)
  else .ok (match reRead with | .ok s => s | .error _ => zeroStudent)

/-- Postgres.UpdateStudentById: UPDATE students SET name = $1, email = $2,
age = $3 WHERE id = $4, then the RowsAffected check and the re-read of
updateReturn.  The UNIQUE email constraint makes the engine reject the
statement, leaving the table unchanged, when a matched row would take an
email that a row with a different id already holds. -/
def UpdateStudentById (t : Table) (id : Int) (name email : String)
    (age : Int) : Except DbError Student × Table :=
  if (t.rows.any (fun s => s.id == id)) &&
      (t.rows.any (fun s => s.id != id && s.email == email)) then
    (.error .constraintViolation, t)
  else
    let t' : Table := ⟨t.rows.map (updateRow id name email age), t.nextId⟩
    (updateReturn id (t.rows.filter (fun s => s.id == id)).length
      (GetStudentById t' id), t')

end Postgres

namespace Sqlite

/-- Sqlite.CreateStudent: INSERT INTO students (name, email, age) VALUES
(?, ?, ?) followed by LastInsertId; same table semantics as the postgres
insert, AUTOINCREMENT assigning the sequence value reported by
LastInsertId. -/
def CreateStudent (t : Table) (name email : String) (age : Int) :
    Except DbError Int × Table :=
  if t.rows.any (fun s => s.email == email) then
    (.error .constraintViolation, t)
  else
    (.ok t.nextId, ⟨t.rows ++ [⟨t.nextId, name, email, age⟩], t.nextId + 1⟩)

/-- Sqlite.GetStudentById: SELECT id, name, email, age FROM students WHERE
id = ? LIMIT 1, first matching row; sql.ErrNoRows becomes the not-found
error. -/
def GetStudentById (t : Table) (id : Int) : Except DbError Student :=
  match t.rows.find? (fun s => s.id == id) with
  | some s => .ok s
  | none => .error (.notFound id)

/-- Sqlite.GetStudents: SELECT id, name, email, age FROM students ORDER BY
id ASC, identical to the postgres query. -/
def GetStudents (t : Table) : Except DbError (List Student) :=
  .ok (List.insertionSort (fun a b => a.id ≤ b.id) t.rows)

end Sqlite

/-- Adapter constructors registered in the factories map of factory.go. -/
inductive Driver where
  | sqlite
  | postgres
deriving Repr, DecidableEq

/-- Startup error of the storage factory. -/
inductive FactoryError where
  | unsupportedDriver (value : String) (supported : List String)
deriving Repr, DecidableEq

/-- Outcome of the storage factory: the selected adapter constructor, an
error return, or process termination through log.Fatal. -/
inductive FactoryOutcome where
  | ok (d : Driver)
  | err (e : FactoryError)
  | fatal
deriving Repr, DecidableEq

/-- Lookup in the factories map of factory.go, from driver name to adapter
constructor. -/
def factories (dbType : String) : Option Driver :=
  if dbType = "sqlite" then some .sqlite
  else if dbType = "postgres" then some .postgres
  else none

/-- NewStorage in factory.go: an empty cfg.DBType terminates the process
through log.Fatal before any lookup; otherwise cfg.DBType is looked up in
the factories map, and an unknown driver yields the unsupported-db-type
error whose message carries the offending value and names the supported
drivers, with no adapter constructor invoked.  On a hit the selected
constructor runs; which constructor was selected is the datum modelled
here. -/
def NewStorage (dbType : String) : FactoryOutcome :=
  if dbType = "" then .fatal
  else
    match factories dbType with
    | some d => .ok d
    | none => .err (.unsupportedDriver dbType ["sqlite", "postgres"])

/-- Names of the methods the Sqlite adapter defines in the source. -/
def sqliteOps : List String :=
  ["CreateStudent", "GetStudentById", "GetStudents"]

/-- Names of the methods the Postgres adapter defines in the source. -/
def postgresOps : List String :=
  ["CreateStudent", "GetStudentById", "GetStudents", "UpdateStudentById"]

/-- Methods the HTTP handlers invoke on the storage.Storage handle (New
calls CreateStudent, GetById calls GetStudentById, GetList calls
GetStudents, UpdateById calls UpdateStudentById): the storage contract any
adapter returned by the factory must provide. -/
def storageContractOps : List String :=
  ["CreateStudent", "GetStudentById", "GetStudents", "UpdateStudentById"]

/-- Outcome of decoding the request body of a create or update request:
empty body (io.EOF), malformed JSON, or a decoded types.Student value. -/
inductive Body where
  | empty
  | malformed
  | decoded (s : Student)

/-- Which response constructor the handler used for its JSON envelope. -/
inductive RespKind where
  | success
  | generalError
  | validationError
deriving Repr, DecidableEq

/-- Observable outcome of one handler call: HTTP status, envelope kind, the
table state afterwards, and whether the storage layer was invoked. -/
structure HandlerOut where
  status : Nat
  kind : RespKind
  table : Table
  storageCalled : Bool
deriving Repr, DecidableEq

/-- Verdict of the go-playground validator on the struct tags of
types.Student: Name required (the string zero value fails), Email required
plus the email format rule (the library format check is abstracted as the
emailValid argument), Age required plus gte=1 and lte=100 (the int zero
value 0 fails required). -/
def validStudent (emailValid : String → Bool) (s : Student) : Bool :=
  (s.name != "") &&
  (s.email != "" && emailValid s.email) &&
  (s.age != 0 && decide (1 ≤ s.age) && decide (s.age ≤ 100))

/-- New handler (POST /api/student): an empty or malformed body answers 400
with a general error without touching storage; a validation failure
answers 400 with the validation envelope without touching storage;
otherwise CreateStudent runs, a storage error answers 400, success answers
201. -/
def newHandler (emailValid : String → Bool) (t : Table) (b : Body) :
    HandlerOut :=
  match b with
  | .empty => ⟨400, .generalError, t, false⟩
  | .malformed => ⟨400, .generalError, t, false⟩
  | .decoded s =>
    if validStudent emailValid s then
      match Postgres.CreateStudent t s.name s.email s.age with
      | (Except.ok _, t') => ⟨201, .success, t', true⟩
      | (Except.error _, t') => ⟨400, .generalError, t', true⟩
    else ⟨400, .validationError, t, false⟩

/-- GetList handler (GET /api/students): a storage failure answers 500,
success answers 200 with the sequence. -/
def getList (t : Table) : Nat × Except DbError (List Student) :=
  match Postgres.GetStudents t with
  | .ok l => (200, .ok l)
  | .error e => (500, .error e)

/-- Invariant of the students table: the primary key keeps row ids
distinct, ids are positive and below the sequence value, and the sequence
value is at least 1. -/
def WF (t : Table) : Prop :=
  (t.rows.map Student.id).Nodup ∧
  (∀ s ∈ t.rows, 0 < s.id ∧ s.id < t.nextId) ∧
  1 ≤ t.nextId

/-- Table states reachable from a fresh table through the storage
operations. -/
inductive Reachable : Table → Prop where
  | empty : Reachable emptyTable
  | create (t : Table) (name email : String) (age : Int) :
      Reachable t → Reachable (Postgres.CreateStudent t name email age).2
  | update (t : Table) (id : Int) (name email : String) (age : Int) :
      Reachable t → Reachable (Postgres.UpdateStudentById t id name email age).2

instance : IsTotal Student (fun a b => a.id ≤ b.id) :=
  ⟨fun a b => Int.le_total a.id b.id⟩

instance : IsTrans Student (fun a b => a.id ≤ b.id) :=
  ⟨fun _ _ _ hab hbc => Int.le_trans hab hbc⟩

/-- Two-student table used by the concrete scenarios; it is reachable by
creating Ada and then Bob in a fresh table. -/
def twoTable : Table :=
  ⟨[⟨1, "Ada", "ada@x.com", 30⟩, ⟨2, "Bob", "bob@x.com", 25⟩], 3⟩

theorem find?_append_of_forall_false {α : Type} {p : α → Bool} {l₁ l₂ : List α}
    (h : ∀ a ∈ l₁, p a = false) : (l₁ ++ l₂).find? p = l₂.find? p := by
  induction l₁ with
  | nil => rfl
  | cons a l ih =>
    have ha : p a = false := h a (List.mem_cons_self a l)
    rw [List.cons_append, List.find?_cons, ha]
    exact ih (fun x hx => h x (List.mem_cons_of_mem a hx))

theorem find?_id_of_nodup {l : List Student} {s : Student}
    (hnd : (l.map Student.id).Nodup) (hs : s ∈ l) :
    l.find? (fun x => x.id == s.id) = some s := by
  induction l with
  | nil => cases hs
  | cons a l ih =>
    rw [List.map_cons, List.nodup_cons] at hnd
    rcases List.mem_cons.mp hs with rfl | hmem
    · rw [List.find?_cons]
      simp
    · have hne : (a.id == s.id) = false := by
        refine beq_eq_false_iff_ne.mpr (fun h => hnd.1 ?_)
        exact h ▸ List.mem_map.mpr ⟨s, hmem, rfl⟩
      rw [List.find?_cons, hne]
      exact ih hnd.2 hmem

theorem updateRow_id (id : Int) (name email : String) (age : Int)
    (s : Student) : (updateRow id name email age s).id = s.id := by
  unfold updateRow
  split <;> rfl

theorem updateRow_of_ne {id : Int} {s : Student} (name email : String)
    (age : Int) (h : s.id ≠ id) : updateRow id name email age s = s := by
  unfold updateRow
  rw [beq_eq_false_iff_ne.mpr h]
  simp

theorem map_update_id_of_no_match {l : List Student} {id : Int}
    (name email : String) (age : Int) (h : ∀ s ∈ l, s.id ≠ id) :
    l.map (updateRow id name email age) = l := by
  induction l with
  | nil => rfl
  | cons a l ih =>
    rw [List.map_cons, updateRow_of_ne name email age (h a (List.mem_cons_self a l))]
    rw [ih (fun s hs => h s (List.mem_cons_of_mem a hs))]

/-- C3: update-by-id on an identifier matching no stored row answers the
not-found error and leaves the table exactly as it was, so every student
retrievable before is retrievable afterwards and no new student exists. -/
theorem C3_update_missing_id (t : Table) (id : Int) (name email : String)
    (age : Int) (h : ∀ s ∈ t.rows, s.id ≠ id) :
    Postgres.UpdateStudentById t id name email age
      = (.error (.notFound id), t) := by
  have hany : t.rows.any (fun s => s.id == id) = false := by
    rw [List.any_eq_false]
    intro s hs
    simp [h s hs]
  have hfil : t.rows.filter (fun s => s.id == id) = [] := by
    rw [List.filter_eq_nil_iff]
    intro s hs
    simp [h s hs]
  unfold Postgres.UpdateStudentById
  rw [hany]
  simp only [Bool.false_and, Bool.false_eq_true, if_false]
  rw [hfil, map_update_id_of_no_match name email age h]
  rfl

theorem C3_witness :
    Postgres.UpdateStudentById emptyTable 5 ("Ada") ("ada@x.com") 30
      = (.error (.notFound 5), emptyTable) :=
  C3_update_missing_id emptyTable 5 ("Ada") ("ada@x.com") 30 (by decide)

/-- C5: GetStudents answers, for every table state, exactly the stored rows
as a sequence that is non-decreasing by identifier. -/
theorem C5_get_students_sorted (t : Table) :
    ∃ l, Postgres.GetStudents t = .ok l ∧ l.Perm t.rows ∧
      List.Sorted (fun a b => a.id ≤ b.id) l :=
  ⟨_, rfl, List.perm_insertionSort _ _, List.sorted_insertionSort _ _⟩

/-- C6: on the empty table GetStudents succeeds with the empty sequence and
the GetList handler answers status 200. -/
theorem C6_empty_list :
    Postgres.GetStudents emptyTable = .ok [] ∧
    getList emptyTable = (200, .ok []) := ⟨rfl, rfl⟩

/-- C7 counterexample: the empty driver string differs from sqlite and
postgres, yet NewStorage does not answer the unsupported-driver error
there: the source terminates the process through log.Fatal before the
lookup, so the claim as stated fails at this input. -/
theorem C7_counterexample :
    ("" : String) ≠ "sqlite" ∧ ("" : String) ≠ "postgres" ∧
    NewStorage ("") = .fatal ∧
    NewStorage ("") ≠ .err (.unsupportedDriver ("") ["sqlite", "postgres"]) := by
  refine ⟨by decide, by decide, rfl, by decide⟩

/-- C7 (amended): every non-empty configured driver string other than
sqlite and postgres makes NewStorage answer the unsupported-driver error
carrying the offending value and the supported drivers, constructing no
adapter; the empty driver string instead terminates the process. -/
theorem C7_unsupported_driver (dbType : String) (h0 : dbType ≠ "")
    (h1 : dbType ≠ "sqlite") (h2 : dbType ≠ "postgres") :
    NewStorage dbType
      = .err (.unsupportedDriver dbType ["sqlite", "postgres"]) := by
  unfold NewStorage factories
  rw [if_neg h0, if_neg h1, if_neg h2]

theorem C7_witness :
    NewStorage ("mysql")
      = .err (.unsupportedDriver ("mysql") ["sqlite", "postgres"]) :=
  C7_unsupported_driver ("mysql") (by decide) (by decide) (by decide)

/-- C9: the storage contract the handlers rely on names four operations;
the Postgres adapter defines all four but the Sqlite adapter lacks
UpdateStudentById, so the two adapters do not implement the same complete
contract. -/
theorem C9_sqlite_missing_update :
    "UpdateStudentById" ∈ storageContractOps ∧
    "UpdateStudentById" ∉ sqliteOps ∧
    ∀ op ∈ storageContractOps, op ∈ postgresOps := by decide

/-- C10: when the UPDATE statement affected at least one row but the
re-read fails, the re-read error is discarded and the method answers the
zero-valued Student with no error. -/
theorem C10_reread_error_discarded (id : Int) (n : Nat) (e : DbError)
    (h : n ≠ 0) :
    Postgres.updateReturn id n (.error e) = .ok zeroStudent := by
  unfold Postgres.updateReturn
  rw [if_neg h]

theorem C10_witness :
    Postgres.updateReturn 7 1 (.error .connectionError) = .ok zeroStudent :=
  C10_reread_error_discarded 7 1 .connectionError (by decide)

/-- C1: on any well-formed table, for valid input (name non-empty, email
accepted by the format check, age in [1,100]), when CreateStudent answers
identifier id, GetStudentById on id in the successor state answers a record
carrying exactly the input fields and that identifier, and the identifier
is positive. -/
theorem C1_create_then_get (emailValid : String → Bool) (t : Table)
    (name email : String) (age : Int) (id : Int)
    (hwf : WF t) (hname : name ≠ "") (hemail : emailValid email = true)
    (hage : 1 ≤ age ∧ age ≤ 100)
    (hc : (Postgres.CreateStudent t name email age).1 = .ok id) :
    Postgres.GetStudentById (Postgres.CreateStudent t name email age).2 id
      = .ok ⟨id, name, email, age⟩ ∧ 0 < id := by
  obtain ⟨hnd, hb, hseq⟩ := hwf
  unfold Postgres.CreateStudent at hc ⊢
  by_cases hdup : t.rows.any (fun s => s.email == email) = true
  · rw [if_pos hdup] at hc
    cases hc
  · rw [if_neg hdup] at hc ⊢
    have hid : id = t.nextId := by
      simpa using hc.symm
    subst hid
    constructor
    · unfold Postgres.GetStudentById
      have hskip : ∀ s ∈ t.rows, (fun x => x.id == t.nextId) s = false := by
        intro s hs
        have := (hb s hs).2
        simp only [beq_eq_false_iff_ne]
        exact ne_of_lt this
      rw [find?_append_of_forall_false hskip]
      simp [List.find?]
    · exact lt_of_lt_of_le Int.zero_lt_one hseq

theorem C1_witness :
    Postgres.GetStudentById
        (Postgres.CreateStudent emptyTable ("Ada") ("ada@x.com") 30).2 1
      = .ok ⟨1, "Ada", "ada@x.com", 30⟩ ∧ (0 : Int) < 1 :=
  C1_create_then_get (fun _ => true) emptyTable ("Ada") ("ada@x.com") 30 1
    (by unfold WF; decide) (by decide) rfl (by decide) rfl

/-- C2: on any well-formed table, a create with an email some stored
student already holds fails with the constraint-violation error and leaves
the table unchanged, and that student stays retrievable by id with all its
fields as they were. -/
theorem C2_duplicate_email (t : Table) (s : Student) (name email : String)
    (age : Int) (hwf : WF t) (hs : s ∈ t.rows) (he : s.email = email) :
    Postgres.CreateStudent t name email age = (.error .constraintViolation, t) ∧
    Postgres.GetStudentById t s.id = .ok s := by
  constructor
  · have hdup : t.rows.any (fun x => x.email == email) = true := by
      rw [List.any_eq_true]
      exact ⟨s, hs, by simp [he]⟩
    unfold Postgres.CreateStudent
    rw [if_pos hdup]
  · unfold Postgres.GetStudentById
    rw [find?_id_of_nodup hwf.1 hs]

theorem C2_witness :
    Postgres.CreateStudent twoTable ("Eve") ("ada@x.com") 20
        = (.error .constraintViolation, twoTable) ∧
    Postgres.GetStudentById twoTable 1 = .ok ⟨1, "Ada", "ada@x.com", 30⟩ :=
  C2_duplicate_email twoTable ⟨1, "Ada", "ada@x.com", 30⟩ ("Eve")
    ("ada@x.com") 20 (by unfold WF; decide) (by decide) rfl

theorem ids_map_updateRow (l : List Student) (id : Int) (name email : String)
    (age : Int) :
    (l.map (updateRow id name email age)).map Student.id = l.map Student.id := by
  rw [List.map_map]
  exact List.map_congr_left (fun s _ => updateRow_id id name email age s)

theorem WF_create (t : Table) (name email : String) (age : Int) (h : WF t) :
    WF (Postgres.CreateStudent t name email age).2 := by
  obtain ⟨hnd, hb, hseq⟩ := h
  by_cases hdup : t.rows.any (fun s => s.email == email) = true
  · have heq : Postgres.CreateStudent t name email age
        = (.error .constraintViolation, t) := by
      unfold Postgres.CreateStudent
      rw [if_pos hdup]
    rw [heq]
    exact ⟨hnd, hb, hseq⟩
  · have heq : Postgres.CreateStudent t name email age
        = (.ok t.nextId,
           (⟨t.rows ++ [⟨t.nextId, name, email, age⟩], t.nextId + 1⟩ : Table)) := by
      unfold Postgres.CreateStudent
      rw [if_neg hdup]
    rw [heq]
    refine ⟨?_, ?_, ?_⟩
    · show ((t.rows ++ [(⟨t.nextId, name, email, age⟩ : Student)]).map Student.id).Nodup
      rw [List.map_append, List.nodup_append]
      refine ⟨hnd, by simp, ?_⟩
      intro a ha hmem
      simp only [List.map_cons, List.map_nil, List.mem_singleton] at hmem
      obtain ⟨s, hs, rfl⟩ := List.mem_map.mp ha
      exact (ne_of_lt (hb s hs).2) hmem
    · show ∀ s ∈ t.rows ++ [(⟨t.nextId, name, email, age⟩ : Student)],
        0 < s.id ∧ s.id < t.nextId + 1
      intro s hs
      rw [List.mem_append] at hs
      rcases hs with hs | hs
      · exact ⟨(hb s hs).1, lt_trans (hb s hs).2 (lt_add_one _)⟩
      · rw [List.mem_singleton] at hs
        subst hs
        exact ⟨lt_of_lt_of_le Int.zero_lt_one hseq, lt_add_one _⟩
    · show (1 : Int) ≤ t.nextId + 1
      exact le_trans hseq (le_of_lt (lt_add_one _))

theorem WF_update (t : Table) (id : Int) (name email : String) (age : Int)
    (h : WF t) : WF (Postgres.UpdateStudentById t id name email age).2 := by
  obtain ⟨hnd, hb, hseq⟩ := h
  by_cases hcond : ((t.rows.any (fun s => s.id == id)) &&
      (t.rows.any (fun s => s.id != id && s.email == email))) = true
  · have heq : Postgres.UpdateStudentById t id name email age
        = (.error .constraintViolation, t) := by
      unfold Postgres.UpdateStudentById
      rw [if_pos hcond]
    rw [heq]
    exact ⟨hnd, hb, hseq⟩
  · have heq : (Postgres.UpdateStudentById t id name email age).2
        = ⟨t.rows.map (updateRow id name email age), t.nextId⟩ := by
      unfold Postgres.UpdateStudentById
      rw [if_neg hcond]
    rw [heq]
    refine ⟨?_, ?_, ?_⟩
    · show ((t.rows.map (updateRow id name email age)).map Student.id).Nodup
      rw [ids_map_updateRow]
      exact hnd
    · show ∀ s ∈ t.rows.map (updateRow id name email age),
        0 < s.id ∧ s.id < t.nextId
      intro s' hs'
      obtain ⟨s, hs, rfl⟩ := List.mem_map.mp hs'
      rw [updateRow_id]
      exact hb s hs
    · exact hseq

theorem WF_reachable {t : Table} (h : Reachable t) : WF t := by
  induction h with
  | empty => unfold WF; decide
  | create t name email age _ ih => exact WF_create t name email age ih
  | update t id name email age _ ih => exact WF_update t id name email age ih

theorem twoTable_reachable : Reachable twoTable := by
  have h2 := Reachable.create (Postgres.CreateStudent emptyTable ("Ada") ("ada@x.com") 30).2
    ("Bob") ("bob@x.com") 25
    (Reachable.create emptyTable ("Ada") ("ada@x.com") 30 Reachable.empty)
  have heq : (Postgres.CreateStudent
      (Postgres.CreateStudent emptyTable ("Ada") ("ada@x.com") 30).2
      ("Bob") ("bob@x.com") 25).2 = twoTable := by decide
  rw [heq] at h2
  exact h2

/-- C4 counterexample: in the reachable two-student table, identifier 1
matches a stored row, yet updating it to the email the other row already
holds makes the engine answer a constraint violation instead of the
re-read record, and a subsequent read still shows the old values; the
claim as stated is therefore false at this input. -/
theorem C4_counterexample :
    Reachable twoTable ∧
    (twoTable.rows.any (fun s => s.id == 1)) = true ∧
    Postgres.UpdateStudentById twoTable 1 ("Ada") ("bob@x.com") 31
      = (.error .constraintViolation, twoTable) ∧
    Postgres.GetStudentById twoTable 1 = .ok ⟨1, "Ada", "ada@x.com", 30⟩ :=
  ⟨twoTable_reachable, by decide, rfl, rfl⟩

/-- C4 (amended): on any well-formed table, for an identifier matching a
stored row and a new email no row with a different identifier holds,
UpdateStudentById replaces exactly the name, email and age of that row,
answers the freshly re-read record whose fields are the new values and
whose identifier is the argument, a subsequent GetStudentById on the
identifier answers the new values, and every other row is unchanged. -/
theorem C4_update_existing (t : Table) (s0 : Student) (id : Int)
    (name email : String) (age : Int)
    (hwf : WF t) (hs : s0 ∈ t.rows) (hid : s0.id = id)
    (hfresh : ∀ s ∈ t.rows, s.id ≠ id → s.email ≠ email) :
    (Postgres.UpdateStudentById t id name email age).1
      = .ok ⟨id, name, email, age⟩ ∧
    Postgres.GetStudentById (Postgres.UpdateStudentById t id name email age).2 id
      = .ok ⟨id, name, email, age⟩ ∧
    ∀ s ∈ t.rows, s.id ≠ id →
      s ∈ (Postgres.UpdateStudentById t id name email age).2.rows := by
  have hcond : ((t.rows.any (fun s => s.id == id)) &&
      (t.rows.any (fun s => s.id != id && s.email == email))) = false := by
    have h2 : t.rows.any (fun s => s.id != id && s.email == email) = false := by
      rw [List.any_eq_false]
      intro s hs'
      by_cases hne : s.id = id
      · simp [hne]
      · simp [hne, hfresh s hs' hne]
    rw [h2, Bool.and_false]
  have heq : Postgres.UpdateStudentById t id name email age
      = (Postgres.updateReturn id
           (t.rows.filter (fun s => s.id == id)).length
           (Postgres.GetStudentById
             ⟨t.rows.map (updateRow id name email age), t.nextId⟩ id),
         (⟨t.rows.map (updateRow id name email age), t.nextId⟩ : Table)) := by
    unfold Postgres.UpdateStudentById
    rw [hcond]
    rfl
  have hids : ((t.rows.map (updateRow id name email age)).map Student.id).Nodup := by
    rw [ids_map_updateRow]
    exact hwf.1
  have hf0 : updateRow id name email age s0 = ⟨id, name, email, age⟩ := by
    unfold updateRow
    rw [hid]
    simp
  have hfind : (t.rows.map (updateRow id name email age)).find?
      (fun x => x.id == id) = some ⟨id, name, email, age⟩ := by
    have hmem : updateRow id name email age s0
        ∈ t.rows.map (updateRow id name email age) :=
      List.mem_map_of_mem (updateRow id name email age) hs
    have h := find?_id_of_nodup hids hmem
    rw [hf0] at h
    exact h
  have hget : Postgres.GetStudentById
      ⟨t.rows.map (updateRow id name email age), t.nextId⟩ id
      = .ok ⟨id, name, email, age⟩ := by
    unfold Postgres.GetStudentById
    rw [hfind]
  have haff : (t.rows.filter (fun s => s.id == id)).length ≠ 0 := by
    have hmem : s0 ∈ t.rows.filter (fun s => s.id == id) :=
      List.mem_filter.mpr ⟨hs, by simp [hid]⟩
    intro hlen
    rw [List.length_eq_zero] at hlen
    rw [hlen] at hmem
    cases hmem
  have hret : Postgres.updateReturn id
      (t.rows.filter (fun s => s.id == id)).length
      (Postgres.GetStudentById
        ⟨t.rows.map (updateRow id name email age), t.nextId⟩ id)
      = .ok ⟨id, name, email, age⟩ := by
    rw [hget]
    unfold Postgres.updateReturn
    rw [if_neg haff]
  refine ⟨?_, ?_, ?_⟩
  · rw [heq]
    exact hret
  · rw [heq]
    exact hget
  · intro s hs' hne
    rw [heq]
    show s ∈ t.rows.map (updateRow id name email age)
    have : updateRow id name email age s = s := updateRow_of_ne name email age hne
    rw [← this]
    exact List.mem_map_of_mem (updateRow id name email age) hs'

theorem C4_witness :
    (Postgres.UpdateStudentById twoTable 1 ("Ada L") ("ada@x.com") 31).1
        = .ok ⟨1, "Ada L", "ada@x.com", 31⟩ ∧
    Postgres.GetStudentById
        (Postgres.UpdateStudentById twoTable 1 ("Ada L") ("ada@x.com") 31).2 1
        = .ok ⟨1, "Ada L", "ada@x.com", 31⟩ ∧
    ∀ s ∈ twoTable.rows, s.id ≠ 1 →
      s ∈ (Postgres.UpdateStudentById twoTable 1 ("Ada L") ("ada@x.com") 31).2.rows :=
  C4_update_existing twoTable ⟨1, "Ada", "ada@x.com", 30⟩ 1 ("Ada L")
    ("ada@x.com") 31 (by unfold WF; decide) (by decide) rfl (by decide)

/-- C8: a POST body that decodes to a student with age outside [1,100]
(age 0 fails the required rule, other out-of-range ages fail gte or lte)
makes the Create handler answer 400 with the validation envelope without
invoking CreateStudent, so the table is unchanged. -/
theorem C8_bad_age (emailValid : String → Bool) (t : Table) (s : Student)
    (h : s.age < 1 ∨ 100 < s.age) :
    newHandler emailValid t (.decoded s) = ⟨400, .validationError, t, false⟩ := by
  have hage : (s.age != 0 && decide (1 ≤ s.age) && decide (s.age ≤ 100)) = false := by
    rcases h with h | h
    · by_cases h0 : s.age = 0
      · simp [h0]
      · have h1 : ¬ (1 ≤ s.age) := by omega
        simp [h1]
    · have h1 : ¬ (s.age ≤ 100) := by omega
      simp [h1]
  have hv : validStudent emailValid s = false := by
    unfold validStudent
    rw [hage, Bool.and_false]
  simp [newHandler, hv]

theorem C8_witness :
    newHandler (fun _ => true) emptyTable (.decoded ⟨0, "Ada", "ada@x.com", 101⟩)
      = ⟨400, .validationError, emptyTable, false⟩ :=
  C8_bad_age (fun _ => true) emptyTable ⟨0, "Ada", "ada@x.com", 101⟩
    (Or.inr (by decide))
